import Mathlib

/-!
Shallow embedding of `computer_use_demo/loop_rest.py`: the session/step
tracking layer of the computer-use REST API.

Modelling conventions:
* Wall-clock reads (`datetime.now()`) are modelled by an explicit `now : Nat`
  parameter per entry-point invocation.  The external sampling loop is the
  single suspension point of the orchestration; each callback and each
  handler body is a non-suspending synchronous block, so all clock reads
  inside one block return the same instant.  Distinct invocations carry
  their own `now` values.
* Python `Optional[str]` truthiness (`if error:`) is `pyTruthy`: `None` and
  the empty string are falsy.
* The Python `sessions` dict is a function `Nat → Option ConversationSession`;
  session ids are `Nat`.  The adapter's `current_step` reference into the
  session's step list is modelled by an index, which captures the aliasing
  (mutating the current step mutates the list entry).
* A step's random `id : UUID` plays no role in any queried behaviour and is
  omitted from the record.
* The external sampling loop is a black box: one run is described by the
  list of callback invocations it performs (`LoopEvent`, each carrying its
  own clock value) followed by its outcome (`LoopOutcome`).
-/

namespace ComputerUseDemo

/-- Python truthiness of an `Optional[str]`: `None` and `""` are falsy. -/
def pyTruthy : Option String → Bool
  | none => false
  | some s => s != ""

/-- `StepType(str, Enum)` from the source. -/
inductive StepType where
  | MODEL_CALL
  | TOOL_USE
  | TOOL_RESULT
  | ERROR
deriving DecidableEq

/-- The `str` value of each `StepType` member. -/
def StepType.value : StepType → String
  | StepType.MODEL_CALL => "model_call"
  | StepType.TOOL_USE => "tool_use"
  | StepType.TOOL_RESULT => "tool_result"
  | StepType.ERROR => "error"

/-- `StepStatus(str, Enum)` from the source. -/
inductive StepStatus where
  | PENDING
  | RUNNING
  | COMPLETED
  | FAILED
deriving DecidableEq

/-- The `str` value of each `StepStatus` member. -/
def StepStatus.value : StepStatus → String
  | StepStatus.PENDING => "pending"
  | StepStatus.RUNNING => "running"
  | StepStatus.COMPLETED => "completed"
  | StepStatus.FAILED => "failed"

/-- A content block handed to `content_callback` by the external loop
(`BetaContentBlock` of the anthropic library); the adapter reads its `type`
and stores its serialized form.  The payload is abstracted to one field. -/
structure BetaContentBlock where
  type : String
  text : String
deriving DecidableEq

/-- The tool result record from `computer_use_demo.tools`, with exactly the
fields `tool_callback` reads: `output`, `error`, `base64_image`. -/
structure ToolResult where
  output : Option String
  error : Option String
  base64_image : Option String
deriving DecidableEq

/-- An API response as read by `api_callback`: the HTTP status code and the
header mapping. -/
structure APIResponse where
  status_code : Nat
  headers : List (String × String)
deriving DecidableEq

/-- One conversation message (`BetaMessageParam`), opaque to this layer. -/
structure BetaMessageParam where
  role : String
  content : String
deriving DecidableEq

/-- The nested `details["result"]` dict built by `tool_callback`. -/
structure ToolResultDetails where
  output : Option String
  error : Option String
  has_image : Bool
deriving DecidableEq

/-- The `details : Dict[str, Any]` payload of a step, as the tagged union of
the shapes actually stored by the source (one per call site). -/
inductive StepDetails where
  | empty
  | modelCall (content_type : String) (content : BetaContentBlock)
  | toolUse (tool_id : String) (result : ToolResultDetails)
  | apiResponse (status_code : Nat) (headers : List (String × String))
deriving DecidableEq

/-- `ConversationStep` from the source (random `id` omitted). -/
structure ConversationStep where
  type : StepType
  status : StepStatus
  start_time : Nat
  end_time : Option Nat
  details : StepDetails
  error : Option String
deriving DecidableEq

/-- `ConversationSession` from the source (random `id` carried by the
registry key instead of the record). -/
structure ConversationSession where
  created_at : Nat
  updated_at : Nat
  steps : List ConversationStep
  messages : List BetaMessageParam
  status : StepStatus
deriving DecidableEq

/-- `HTTPException(status_code, detail)`. -/
structure HTTPException where
  status_code : Nat
  detail : String
deriving DecidableEq

/-- `ConversationResponse` (the session id echoes the request and is
carried by context). -/
structure ConversationResponse where
  status : StepStatus
  messages : List BetaMessageParam
deriving DecidableEq

/-- The global `sessions : Dict[UUID, ConversationSession]` store. -/
abbrev SessionStore : Type := Nat → Option ConversationSession

/-- `EnhancedCallbackStore`: the per-session adapter.  The `session_id`
indirection through the global dict is modelled by carrying the session
record; `current_step` is an index into `session.steps` (the Python field
is a reference to the step object that also sits in the list). -/
structure EnhancedCallbackStore where
  session : ConversationSession
  current_step : Option Nat
deriving DecidableEq

/-- `EnhancedCallbackStore._add_step`: append a RUNNING step with
`start_time = now`, no `end_time`, no `error`, and point `current_step`
at it. -/
def addStep (st : EnhancedCallbackStore) (now : Nat) (ty : StepType)
    (details : StepDetails) : EnhancedCallbackStore :=
  { session := { st.session with
      steps := st.session.steps ++
        [{ type := ty, status := StepStatus.RUNNING, start_time := now,
           end_time := none, details := details, error := none }] },
    current_step := some st.session.steps.length }

/-- `EnhancedCallbackStore._complete_step`: if a current step exists, set
its `end_time`, set status FAILED when the error is truthy else COMPLETED,
record the error only when truthy, and clear the reference; otherwise do
nothing.  (The dangling-index branch is unreachable: the reference always
points at the step just appended.) -/
def completeStep (st : EnhancedCallbackStore) (now : Nat)
    (error : Option String) : EnhancedCallbackStore :=
  match st.current_step with
  | none => st
  | some i =>
    match st.session.steps[i]? with
    | none => { st with current_step := none }
    | some step =>
      { session := { st.session with
          steps := st.session.steps.set i
            { step with
              end_time := some now,
              status := if pyTruthy error then StepStatus.FAILED
                        else StepStatus.COMPLETED,
              error := if pyTruthy error then error else step.error } },
        current_step := none }

/-- `EnhancedCallbackStore.content_callback`. -/
def content_callback (st : EnhancedCallbackStore) (now : Nat)
    (block : BetaContentBlock) : EnhancedCallbackStore :=
  completeStep
    (addStep st now StepType.MODEL_CALL (StepDetails.modelCall block.type block))
    now none

/-- `EnhancedCallbackStore.tool_callback`. -/
def tool_callback (st : EnhancedCallbackStore) (now : Nat)
    (result : ToolResult) (tool_id : String) : EnhancedCallbackStore :=
  completeStep
    (addStep st now StepType.TOOL_USE
      (StepDetails.toolUse tool_id
        { output := result.output, error := result.error,
          has_image := pyTruthy result.base64_image }))
    now result.error

/-- `EnhancedCallbackStore.api_callback`. -/
def api_callback (st : EnhancedCallbackStore) (now : Nat)
    (response : APIResponse) : EnhancedCallbackStore :=
  completeStep
    (addStep st now StepType.TOOL_RESULT
      (StepDetails.apiResponse response.status_code response.headers))
    now none

/-- One callback invocation performed by the external sampling loop during
its run, with the wall-clock instant at which it happens. -/
inductive LoopEvent where
  | content (now : Nat) (block : BetaContentBlock)
  | toolResult (now : Nat) (result : ToolResult) (tool_id : String)
  | apiResponse (now : Nat) (response : APIResponse)
deriving DecidableEq

/-- Dispatch one loop event to the corresponding adapter callback. -/
def applyEvent (st : EnhancedCallbackStore) : LoopEvent → EnhancedCallbackStore
  | LoopEvent.content now block => content_callback st now block
  | LoopEvent.toolResult now result tool_id => tool_callback st now result tool_id
  | LoopEvent.apiResponse now response => api_callback st now response

/-- How the external sampling loop finishes: a final message list, or an
exception whose message is `msg` (`str(e)` in the source). -/
inductive LoopOutcome where
  | success (messages : List BetaMessageParam)
  | failure (msg : String)
deriving DecidableEq

/-- The session freshly stored by `create_conversation` before the loop
runs: caller-supplied messages, empty step list, status PENDING,
`created_at = updated_at =` creation instant. -/
def initialSession (t0 : Nat) (messages : List BetaMessageParam) :
    ConversationSession :=
  { created_at := t0, updated_at := t0, steps := [], messages := messages,
    status := StepStatus.PENDING }

/-- The synthetic ERROR step appended by `create_conversation`'s exception
handler. -/
def errorStep (now : Nat) (msg : String) : ConversationStep :=
  { type := StepType.ERROR, status := StepStatus.FAILED, start_time := now,
    end_time := some now, details := StepDetails.empty, error := some msg }

/-- `create_conversation` for one request, with the external loop described
by its callback events and outcome: store the fresh session, run the loop
(which drives the adapter), then on success replace the messages, set
status COMPLETED and `updated_at`, and return a response; on failure set
status FAILED, append the synthetic ERROR step, and return the 500 error
carrying `str(e)`.  Yields the final stored session and the HTTP result. -/
def create_conversation (t0 : Nat) (req_messages : List BetaMessageParam)
    (events : List LoopEvent) (outcome : LoopOutcome) (t_end : Nat) :
    ConversationSession × Except HTTPException ConversationResponse :=
  let st := List.foldl applyEvent
    { session := initialSession t0 req_messages, current_step := none } events
  match outcome with
  | LoopOutcome.success msgs =>
    ({ st.session with
        messages := msgs
        status := StepStatus.COMPLETED
        updated_at := t_end },
     Except.ok { status := StepStatus.COMPLETED, messages := msgs })
  | LoopOutcome.failure msg =>
    ({ st.session with
        status := StepStatus.FAILED
        steps := st.session.steps ++ [errorStep t_end msg] },
     Except.error { status_code := 500, detail := msg })

/-- The adapter states reached during a run: the initial state and the
state after each successive callback. -/
def runStates (st : EnhancedCallbackStore) :
    List LoopEvent → List EnhancedCallbackStore
  | [] => [st]
  | e :: es => st :: runStates (applyEvent st e) es

/-- Every version of the stored session over one `create_conversation`
run: after creation, after each callback, and after finalization. -/
def runTrace (t0 : Nat) (req : List BetaMessageParam)
    (events : List LoopEvent) (outcome : LoopOutcome) (t_end : Nat) :
    List ConversationSession :=
  (runStates { session := initialSession t0 req, current_step := none }
      events).map EnhancedCallbackStore.session
    ++ [(create_conversation t0 req events outcome t_end).1]

/-- The session's status at each point of a run. -/
def statusTrace (t0 : Nat) (req : List BetaMessageParam)
    (events : List LoopEvent) (outcome : LoopOutcome) (t_end : Nat) :
    List StepStatus :=
  (runTrace t0 req events outcome t_end).map ConversationSession.status

/-- The terminal session status determined by the loop outcome. -/
def outcomeStatus : LoopOutcome → StepStatus
  | LoopOutcome.success _ => StepStatus.COMPLETED
  | LoopOutcome.failure _ => StepStatus.FAILED

/-- `GET /conversation/sid/steps`: 404 when absent, else the step list
with the Python-truthiness-guarded equality filters applied in order. -/
def get_conversation_steps (sessions : SessionStore) (sid : Nat)
    (step_type : Option StepType) (status : Option StepStatus) :
    Except HTTPException (List ConversationStep) :=
  match sessions sid with
  | none => Except.error { status_code := 404, detail := "会话未找到" }
  | some session =>
    let steps0 := session.steps
    let steps1 :=
      match step_type with
      | some t =>
        if t.value != "" then
          steps0.filter (fun step => decide (step.type = t))
        else steps0
      | none => steps0
    let steps2 :=
      match status with
      | some s =>
        if s.value != "" then
          steps1.filter (fun step => decide (step.status = s))
        else steps1
      | none => steps1
    Except.ok steps2

/-- The body of the summary's counting loop: one step increments its type's
entry and its status's entry, the dicts being total maps pre-seeded with
every enum member at 0. -/
def countsFold (acc : (StepType → Nat) × (StepStatus → Nat))
    (step : ConversationStep) : (StepType → Nat) × (StepStatus → Nat) :=
  (fun t => if t = step.type then acc.1 t + 1 else acc.1 t,
   fun s => if s = step.status then acc.2 s + 1 else acc.2 s)

/-- The summary's single pass over the step list, starting from the
zero-filled dicts. -/
def summaryCounts (steps : List ConversationStep) :
    (StepType → Nat) × (StepStatus → Nat) :=
  steps.foldl countsFold (fun _ => 0, fun _ => 0)

/-- The `StepType` members in declaration order (the key order of the
pre-seeded dict comprehension). -/
def allStepTypes : List StepType :=
  [StepType.MODEL_CALL, StepType.TOOL_USE, StepType.TOOL_RESULT, StepType.ERROR]

/-- The `StepStatus` members in declaration order. -/
def allStepStatuses : List StepStatus :=
  [StepStatus.PENDING, StepStatus.RUNNING, StepStatus.COMPLETED,
   StepStatus.FAILED]

/-- The dict returned by `get_conversation_summary`.  `total_duration` is
the timedelta `now - created_at` (its string rendering is not modelled). -/
structure ConversationSummary where
  session_id : Nat
  status : StepStatus
  created_at : Nat
  updated_at : Nat
  total_duration : Int
  total_steps : Nat
  step_type_counts : List (StepType × Nat)
  status_counts : List (StepStatus × Nat)
  messages_count : Nat
deriving DecidableEq

/-- `GET /conversation/sid/summary`: 404 when absent, else the aggregated
statistics over the session's current steps at instant `now`. -/
def get_conversation_summary (sessions : SessionStore) (sid : Nat)
    (now : Nat) : Except HTTPException ConversationSummary :=
  match sessions sid with
  | none => Except.error { status_code := 404, detail := "会话未找到" }
  | some session =>
    let counts := summaryCounts session.steps
    Except.ok
      { session_id := sid,
        status := session.status,
        created_at := session.created_at,
        updated_at := session.updated_at,
        total_duration := (now : Int) - (session.created_at : Int),
        total_steps := session.steps.length,
        step_type_counts := allStepTypes.map (fun t => (t, counts.1 t)),
        status_counts := allStepStatuses.map (fun s => (s, counts.2 s)),
        messages_count := session.messages.length }

/-- The closed step that one callback invocation appends (derived form,
proved equal to the adapter's behaviour in `applyEvent_eq`). -/
def eventStep : LoopEvent → ConversationStep
  | LoopEvent.content now block =>
    { type := StepType.MODEL_CALL, status := StepStatus.COMPLETED,
      start_time := now, end_time := some now,
      details := StepDetails.modelCall block.type block, error := none }
  | LoopEvent.toolResult now result tool_id =>
    { type := StepType.TOOL_USE,
      status := if pyTruthy result.error then StepStatus.FAILED
                else StepStatus.COMPLETED,
      start_time := now, end_time := some now,
      details := StepDetails.toolUse tool_id
        { output := result.output, error := result.error,
          has_image := pyTruthy result.base64_image },
      error := if pyTruthy result.error then result.error else none }
  | LoopEvent.apiResponse now response =>
    { type := StepType.TOOL_RESULT, status := StepStatus.COMPLETED,
      start_time := now, end_time := some now,
      details := StepDetails.apiResponse response.status_code response.headers,
      error := none }

/-- The step timing/outcome invariant: `end_time` is set iff the status is
terminal, and the `error` field is populated iff the status is FAILED. -/
def stepWellFormed (step : ConversationStep) : Prop :=
  (step.end_time.isSome = true ↔
    (step.status = StepStatus.COMPLETED ∨ step.status = StepStatus.FAILED)) ∧
  (step.error.isSome = true ↔ step.status = StepStatus.FAILED)

/-- A sample content block handed over by the external loop. -/
def sampleBlock : BetaContentBlock := { type := "text", text := "hello" }

/-- A sample caller-supplied message. -/
def sampleMessage : BetaMessageParam := { role := "user", content := "hi" }

/-- A successful tool result. -/
def sampleToolResult : ToolResult :=
  { output := some "42", error := none, base64_image := none }

/-- A failing tool result with a non-empty error. -/
def sampleFailedToolResult : ToolResult :=
  { output := none, error := some "boom", base64_image := none }

/-- A tool result whose error field is present but the empty string. -/
def sampleEmptyErrorToolResult : ToolResult :=
  { output := some "ok", error := some "", base64_image := none }

/-- A fresh adapter over a newly created session with no open step. -/
def sampleStore : EnhancedCallbackStore :=
  { session := initialSession 0 [sampleMessage], current_step := none }

/-- A sample run: one content callback, one failing tool callback, then the
external loop raises, so the stored session ends FAILED with three steps. -/
def sampleSession : ConversationSession :=
  (create_conversation 0 [sampleMessage]
    [LoopEvent.content 1 sampleBlock,
     LoopEvent.toolResult 2 sampleFailedToolResult "tool-1"]
    (LoopOutcome.failure "rate limited") 3).1

/-- A store holding `sampleSession` at id 0. -/
def sampleSessions : SessionStore :=
  fun sid => if sid = 0 then some sampleSession else none

theorem getElem?_append_singleton (l : List α) (a : α) :
    (l ++ [a])[l.length]? = some a := by
  induction l with
  | nil => rfl
  | cons x xs ih => simp [ih]

theorem set_append_singleton (l : List α) (a b : α) :
    (l ++ [a]).set l.length b = l ++ [b] := by
  induction l with
  | nil => rfl
  | cons x xs ih => simp [List.set, ih]

/-- Each adapter callback appends exactly the closed step `eventStep e` to
the session and clears the current-step reference, whatever the previous
adapter state was. -/
theorem applyEvent_eq (st : EnhancedCallbackStore) (e : LoopEvent) :
    applyEvent st e =
      { session := { st.session with
          steps := st.session.steps ++ [eventStep e] }
        current_step := none } := by
  cases e <;>
    simp [applyEvent, content_callback, tool_callback, api_callback, addStep,
      completeStep, eventStep, getElem?_append_singleton, set_append_singleton,
      pyTruthy]

theorem applyEvent_steps (st : EnhancedCallbackStore) (e : LoopEvent) :
    (applyEvent st e).session.steps = st.session.steps ++ [eventStep e] := by
  rw [applyEvent_eq]

theorem applyEvent_current_step (st : EnhancedCallbackStore) (e : LoopEvent) :
    (applyEvent st e).current_step = none := by
  rw [applyEvent_eq]

theorem applyEvent_status (st : EnhancedCallbackStore) (e : LoopEvent) :
    (applyEvent st e).session.status = st.session.status := by
  rw [applyEvent_eq]

theorem applyEvent_messages (st : EnhancedCallbackStore) (e : LoopEvent) :
    (applyEvent st e).session.messages = st.session.messages := by
  rw [applyEvent_eq]

theorem applyEvent_updated_at (st : EnhancedCallbackStore) (e : LoopEvent) :
    (applyEvent st e).session.updated_at = st.session.updated_at := by
  rw [applyEvent_eq]

theorem applyEvent_created_at (st : EnhancedCallbackStore) (e : LoopEvent) :
    (applyEvent st e).session.created_at = st.session.created_at := by
  rw [applyEvent_eq]

theorem foldl_applyEvent_status (events : List LoopEvent)
    (st : EnhancedCallbackStore) :
    (List.foldl applyEvent st events).session.status = st.session.status := by
  induction events generalizing st with
  | nil => rfl
  | cons e es ih => rw [List.foldl_cons, ih, applyEvent_status]

theorem foldl_applyEvent_messages (events : List LoopEvent)
    (st : EnhancedCallbackStore) :
    (List.foldl applyEvent st events).session.messages =
      st.session.messages := by
  induction events generalizing st with
  | nil => rfl
  | cons e es ih => rw [List.foldl_cons, ih, applyEvent_messages]

theorem foldl_applyEvent_updated_at (events : List LoopEvent)
    (st : EnhancedCallbackStore) :
    (List.foldl applyEvent st events).session.updated_at =
      st.session.updated_at := by
  induction events generalizing st with
  | nil => rfl
  | cons e es ih => rw [List.foldl_cons, ih, applyEvent_updated_at]

theorem foldl_applyEvent_created_at (events : List LoopEvent)
    (st : EnhancedCallbackStore) :
    (List.foldl applyEvent st events).session.created_at =
      st.session.created_at := by
  induction events generalizing st with
  | nil => rfl
  | cons e es ih => rw [List.foldl_cons, ih, applyEvent_created_at]

/-- The step appended by a callback satisfies the timing/outcome
invariant. -/
theorem eventStep_wellFormed (e : LoopEvent) : stepWellFormed (eventStep e) := by
  cases e with
  | content now block => simp [eventStep, stepWellFormed]
  | toolResult now result tool_id =>
    cases h : pyTruthy result.error with
    | false => simp [eventStep, stepWellFormed, h]
    | true =>
      cases herr : result.error with
      | none => rw [herr] at h; simp [pyTruthy] at h
      | some s => simp [eventStep, stepWellFormed, h, herr]
  | apiResponse now response => simp [eventStep, stepWellFormed]

/-- The synthetic ERROR step satisfies the timing/outcome invariant. -/
theorem errorStep_wellFormed (now : Nat) (msg : String) :
    stepWellFormed (errorStep now msg) := by
  simp [errorStep, stepWellFormed]

theorem applyEvent_preserves_WF (st : EnhancedCallbackStore) (e : LoopEvent)
    (h : ∀ step ∈ st.session.steps, stepWellFormed step) :
    ∀ step ∈ (applyEvent st e).session.steps, stepWellFormed step := by
  intro step hmem
  rw [applyEvent_steps] at hmem
  rcases List.mem_append.mp hmem with hl | hr
  · exact h step hl
  · rw [List.mem_singleton.mp hr]
    exact eventStep_wellFormed e

theorem runStates_WF (events : List LoopEvent) (st : EnhancedCallbackStore)
    (h : ∀ step ∈ st.session.steps, stepWellFormed step) :
    ∀ st' ∈ runStates st events, ∀ step ∈ st'.session.steps,
      stepWellFormed step := by
  induction events generalizing st with
  | nil =>
    intro st' hmem
    rw [runStates] at hmem
    rw [List.mem_singleton.mp hmem]
    exact h
  | cons e es ih =>
    intro st' hmem
    rw [runStates] at hmem
    rcases List.mem_cons.mp hmem with heq | htl
    · rw [heq]; exact h
    · exact ih (applyEvent st e) (applyEvent_preserves_WF st e h) st' htl

theorem foldl_applyEvent_WF (events : List LoopEvent)
    (st : EnhancedCallbackStore)
    (h : ∀ step ∈ st.session.steps, stepWellFormed step) :
    ∀ step ∈ (List.foldl applyEvent st events).session.steps,
      stepWellFormed step := by
  induction events generalizing st with
  | nil => exact h
  | cons e es ih =>
    rw [List.foldl_cons]
    exact ih (applyEvent st e) (applyEvent_preserves_WF st e h)

theorem runStates_status_pending (events : List LoopEvent)
    (st : EnhancedCallbackStore)
    (h : st.session.status = StepStatus.PENDING) :
    (runStates st events).map (fun s => s.session.status) =
      List.replicate (events.length + 1) StepStatus.PENDING := by
  induction events generalizing st with
  | nil => simp [runStates, h]
  | cons e es ih =>
    rw [runStates, List.map_cons, h, List.length_cons,
      List.replicate_succ]
    rw [ih (applyEvent st e) (by rw [applyEvent_status]; exact h)]

theorem summaryCounts_fold_fst (steps : List ConversationStep)
    (acc : (StepType → Nat) × (StepStatus → Nat)) (t : StepType) :
    (List.foldl countsFold acc steps).1 t =
      acc.1 t + steps.countP (fun step => decide (step.type = t)) := by
  induction steps generalizing acc with
  | nil => simp
  | cons s rest ih =>
    rw [List.foldl_cons, ih, List.countP_cons]
    by_cases h : s.type = t
    · subst h
      simp [countsFold]
      omega
    · simp [countsFold, h, Ne.symm h]

theorem summaryCounts_fold_snd (steps : List ConversationStep)
    (acc : (StepType → Nat) × (StepStatus → Nat)) (stt : StepStatus) :
    (List.foldl countsFold acc steps).2 stt =
      acc.2 stt + steps.countP (fun step => decide (step.status = stt)) := by
  induction steps generalizing acc with
  | nil => simp
  | cons s rest ih =>
    rw [List.foldl_cons, ih, List.countP_cons]
    by_cases h : s.status = stt
    · subst h
      simp [countsFold]
      omega
    · simp [countsFold, h, Ne.symm h]

theorem summaryCounts_fst (steps : List ConversationStep) (t : StepType) :
    (summaryCounts steps).1 t =
      steps.countP (fun step => decide (step.type = t)) := by
  rw [summaryCounts, summaryCounts_fold_fst]
  simp

theorem summaryCounts_snd (steps : List ConversationStep) (stt : StepStatus) :
    (summaryCounts steps).2 stt =
      steps.countP (fun step => decide (step.status = stt)) := by
  rw [summaryCounts, summaryCounts_fold_snd]
  simp

theorem countP_type_partition (steps : List ConversationStep) :
    steps.countP (fun s => decide (s.type = StepType.MODEL_CALL)) +
      steps.countP (fun s => decide (s.type = StepType.TOOL_USE)) +
      steps.countP (fun s => decide (s.type = StepType.TOOL_RESULT)) +
      steps.countP (fun s => decide (s.type = StepType.ERROR)) =
      steps.length := by
  induction steps with
  | nil => simp
  | cons s rest ih =>
    simp only [List.countP_cons, List.length_cons]
    cases h : s.type <;> simp [h] <;> omega

theorem countP_status_partition (steps : List ConversationStep) :
    steps.countP (fun s => decide (s.status = StepStatus.PENDING)) +
      steps.countP (fun s => decide (s.status = StepStatus.RUNNING)) +
      steps.countP (fun s => decide (s.status = StepStatus.COMPLETED)) +
      steps.countP (fun s => decide (s.status = StepStatus.FAILED)) =
      steps.length := by
  induction steps with
  | nil => simp
  | cons s rest ih =>
    simp only [List.countP_cons, List.length_cons]
    cases h : s.status <;> simp [h] <;> omega

theorem eventStep_terminal (e : LoopEvent) :
    (eventStep e).status = StepStatus.COMPLETED ∨
      (eventStep e).status = StepStatus.FAILED := by
  cases e with
  | content now block => left; rfl
  | toolResult now result tool_id =>
    cases h : pyTruthy result.error <;> simp [eventStep, h]
  | apiResponse now response => left; rfl

theorem eventStep_end_time_isSome (e : LoopEvent) :
    (eventStep e).end_time.isSome = true := by
  cases e <;> rfl

/-- C8: `_complete_step` invoked with no currently open step is a no-op:
the adapter state, including the session and its steps, is returned
unchanged, and the operation is total (it raises nothing). -/
theorem complete_step_no_open_step_noop (st : EnhancedCallbackStore)
    (now : Nat) (error : Option String) (h : st.current_step = none) :
    completeStep st now error = st := by
  simp [completeStep, h]

theorem complete_step_noop_witness :
    sampleStore.current_step = none ∧
      completeStep sampleStore 7 (some "boom") = sampleStore :=
  ⟨rfl, complete_step_no_open_step_noop sampleStore 7 (some "boom") rfl⟩

/-- C9: any single callback invocation from an adapter state with no open
step returns with the current-step reference cleared, having appended
exactly one step, which is already terminal with its `end_time` set. -/
theorem callback_closes_step (st : EnhancedCallbackStore) (e : LoopEvent)
    (_h : st.current_step = none) :
    (applyEvent st e).current_step = none ∧
      ∃ step, (applyEvent st e).session.steps = st.session.steps ++ [step] ∧
        (step.status = StepStatus.COMPLETED ∨
          step.status = StepStatus.FAILED) ∧
        step.end_time.isSome = true :=
  ⟨applyEvent_current_step st e,
   eventStep e, applyEvent_steps st e, eventStep_terminal e,
   eventStep_end_time_isSome e⟩

theorem callback_closes_step_witness :
    sampleStore.current_step = none ∧
      ((applyEvent sampleStore (LoopEvent.content 1 sampleBlock)).current_step
          = none ∧
        ∃ step,
          (applyEvent sampleStore
              (LoopEvent.content 1 sampleBlock)).session.steps =
            sampleStore.session.steps ++ [step] ∧
          (step.status = StepStatus.COMPLETED ∨
            step.status = StepStatus.FAILED) ∧
          step.end_time.isSome = true) :=
  ⟨rfl, callback_closes_step sampleStore (LoopEvent.content 1 sampleBlock) rfl⟩

/-- C4: every `tool_callback` invocation appends exactly one TOOL_USE step
whose details carry the tool id, the result's output, its error (whose
truthiness is the error-present flag) and the has-image flag; the step is
closed FAILED with the error recorded verbatim when the result carries a
(truthy) error, else closed COMPLETED with no error recorded. -/
theorem tool_callback_records_tool_use (st : EnhancedCallbackStore)
    (now : Nat) (result : ToolResult) (tool_id : String) :
    ∃ step,
      (tool_callback st now result tool_id).session.steps =
        st.session.steps ++ [step] ∧
      (tool_callback st now result tool_id).current_step = none ∧
      step.type = StepType.TOOL_USE ∧
      step.details = StepDetails.toolUse tool_id
        { output := result.output, error := result.error,
          has_image := pyTruthy result.base64_image } ∧
      step.start_time = now ∧
      step.end_time = some now ∧
      step.status = (if pyTruthy result.error then StepStatus.FAILED
                     else StepStatus.COMPLETED) ∧
      step.error = (if pyTruthy result.error then result.error else none) :=
  ⟨eventStep (LoopEvent.toolResult now result tool_id),
   applyEvent_steps st (LoopEvent.toolResult now result tool_id),
   applyEvent_current_step st (LoopEvent.toolResult now result tool_id),
   rfl, rfl, rfl, rfl, rfl, rfl⟩

/-- C10: a tool result whose error field is present but equal to the empty
string closes its step as COMPLETED with no error recorded. -/
theorem tool_callback_empty_error_completed (st : EnhancedCallbackStore)
    (now : Nat) (result : ToolResult) (tool_id : String)
    (h : result.error = some "") :
    ∃ step,
      (tool_callback st now result tool_id).session.steps =
        st.session.steps ++ [step] ∧
      step.status = StepStatus.COMPLETED ∧ step.error = none := by
  have htr : pyTruthy result.error = false := by rw [h]; rfl
  exact ⟨eventStep (LoopEvent.toolResult now result tool_id),
    applyEvent_steps st (LoopEvent.toolResult now result tool_id),
    by simp [eventStep, htr], by simp [eventStep, htr]⟩

theorem tool_callback_empty_error_witness :
    sampleEmptyErrorToolResult.error = some "" ∧
      ∃ step,
        (tool_callback sampleStore 4 sampleEmptyErrorToolResult
            "tool-9").session.steps =
          sampleStore.session.steps ++ [step] ∧
        step.status = StepStatus.COMPLETED ∧ step.error = none :=
  ⟨rfl, tool_callback_empty_error_completed sampleStore 4
    sampleEmptyErrorToolResult "tool-9" rfl⟩

/-- C1: when the external loop raises after the session was stored, the
orchestrator sets the session status to FAILED, appends exactly one
synthetic ERROR step (status FAILED, `start_time = end_time =` the failure
instant, `error =` the failure message) after the steps completed before
the failure, leaves the session's messages at the caller-supplied list,
and returns a 500 error carrying the same message. -/
theorem create_conversation_failure_spec (t0 : Nat)
    (req : List BetaMessageParam) (events : List LoopEvent) (msg : String)
    (t_end : Nat) :
    (create_conversation t0 req events (LoopOutcome.failure msg)
        t_end).1.status = StepStatus.FAILED ∧
      (create_conversation t0 req events (LoopOutcome.failure msg)
          t_end).1.messages = req ∧
      (∃ es,
        (create_conversation t0 req events (LoopOutcome.failure msg)
            t_end).1.steps =
          (List.foldl applyEvent
              { session := initialSession t0 req, current_step := none }
              events).session.steps ++ [es] ∧
          es.type = StepType.ERROR ∧ es.status = StepStatus.FAILED ∧
          es.start_time = t_end ∧ es.end_time = some t_end ∧
          es.error = some msg) ∧
      (create_conversation t0 req events (LoopOutcome.failure msg) t_end).2 =
        Except.error { status_code := 500, detail := msg } := by
  refine ⟨rfl, ?_, ⟨errorStep t_end msg, rfl, rfl, rfl, rfl, rfl, rfl⟩, rfl⟩
  exact foldl_applyEvent_messages events
    { session := initialSession t0 req, current_step := none }

/-- C5: over a whole run, every step ever recorded on the session — the
steps appended by the adapter callbacks and the orchestrator's synthetic
ERROR step — has `end_time` set iff its status is terminal (COMPLETED or
FAILED) and its `error` field populated iff its status is FAILED. -/
theorem steps_always_wellFormed (t0 : Nat) (req : List BetaMessageParam)
    (events : List LoopEvent) (outcome : LoopOutcome) (t_end : Nat) :
    ∀ session ∈ runTrace t0 req events outcome t_end,
      ∀ step ∈ session.steps, stepWellFormed step := by
  have hinit : ∀ step ∈
      (({ session := initialSession t0 req
          current_step := none } : EnhancedCallbackStore)).session.steps,
      stepWellFormed step := by
    intro s hs
    simp [initialSession] at hs
  intro session hmem step hstep
  rw [runTrace] at hmem
  rcases List.mem_append.mp hmem with hscan | hfin
  · rcases List.mem_map.mp hscan with ⟨st', hst', rfl⟩
    exact runStates_WF events _ hinit st' hst' step hstep
  · rw [List.mem_singleton.mp hfin] at hstep
    cases outcome with
    | success msgs =>
      exact foldl_applyEvent_WF events _ hinit step hstep
    | failure msg =>
      rcases List.mem_append.mp hstep with h1 | h2
      · exact foldl_applyEvent_WF events _ hinit step h1
      · rw [List.mem_singleton.mp h2]
        exact errorStep_wellFormed t_end msg

theorem steps_always_wellFormed_witness :
    sampleSession ∈ runTrace 0 [sampleMessage]
        [LoopEvent.content 1 sampleBlock,
         LoopEvent.toolResult 2 sampleFailedToolResult "tool-1"]
        (LoopOutcome.failure "rate limited") 3 ∧
      errorStep 3 "rate limited" ∈ sampleSession.steps ∧
      stepWellFormed (errorStep 3 "rate limited") :=
  ⟨by decide, by decide,
   steps_always_wellFormed 0 [sampleMessage]
     [LoopEvent.content 1 sampleBlock,
      LoopEvent.toolResult 2 sampleFailedToolResult "tool-1"]
     (LoopOutcome.failure "rate limited") 3
     sampleSession (by decide) (errorStep 3 "rate limited") (by decide)⟩

/-- C6 counterexample: a concrete successful run whose status history never
contains RUNNING, refuting that the session "passes through RUNNING". -/
theorem status_never_running_counterexample :
    StepStatus.RUNNING ∉
      statusTrace 0 [sampleMessage] [LoopEvent.content 1 sampleBlock]
        (LoopOutcome.success []) 2 := by
  decide

/-- C6 amended: the session status goes directly PENDING to terminal — it
starts PENDING, stays PENDING through every callback (it is never set to
RUNNING), and becomes terminal exactly once at finalization: COMPLETED on
success, FAILED on failure, with nothing after it in the run. -/
theorem status_trace_spec (t0 : Nat) (req : List BetaMessageParam)
    (events : List LoopEvent) (outcome : LoopOutcome) (t_end : Nat) :
    statusTrace t0 req events outcome t_end =
      List.replicate (events.length + 1) StepStatus.PENDING ++
        [outcomeStatus outcome] := by
  rw [statusTrace, runTrace, List.map_append]
  congr 1
  · rw [List.map_map]
    exact runStates_status_pending events
      { session := initialSession t0 req, current_step := none } rfl
  · cases outcome <;> rfl

/-- C7 counterexample: appending a step through the adapter is a session
mutation (the step list grows) that leaves `updated_at` unchanged,
refuting that every mutation advances `updated_at`. -/
theorem updated_at_not_advanced_counterexample :
    (content_callback sampleStore 5 sampleBlock).session.updated_at =
        sampleStore.session.updated_at ∧
      (content_callback sampleStore 5 sampleBlock).session.steps.length =
        sampleStore.session.steps.length + 1 := by
  decide

/-- C7 amended: `updated_at` is set (to the finalization instant) only on
the success-path finalization of a run; the adapter's step appends and the
failure-path mutations (status FAILED plus the synthetic ERROR step) leave
`updated_at` unchanged at its creation value. -/
theorem updated_at_only_on_success_finalize :
    (∀ (st : EnhancedCallbackStore) (e : LoopEvent),
      (applyEvent st e).session.updated_at = st.session.updated_at) ∧
      (∀ (t0 : Nat) (req : List BetaMessageParam) (events : List LoopEvent)
        (msg : String) (t_end : Nat),
        (create_conversation t0 req events (LoopOutcome.failure msg)
            t_end).1.updated_at = t0) ∧
      (∀ (t0 : Nat) (req : List BetaMessageParam) (events : List LoopEvent)
        (msgs : List BetaMessageParam) (t_end : Nat),
        (create_conversation t0 req events (LoopOutcome.success msgs)
            t_end).1.updated_at = t_end) := by
  refine ⟨applyEvent_updated_at, ?_, ?_⟩
  · intro t0 req events msg t_end
    exact foldl_applyEvent_updated_at events
      { session := initialSession t0 req, current_step := none }
  · intro t0 req events msgs t_end
    rfl

theorem stepType_value_ne_empty (t : StepType) : (t.value != "") = true := by
  cases t <;> rfl

theorem stepStatus_value_ne_empty (s : StepStatus) :
    (s.value != "") = true := by
  cases s <;> rfl

/-- C3: for a stored session, `listSteps` with no filter returns exactly
the session's steps in insertion order; a present type and/or status
filter restricts the result to exactly the equality filter of the full
list on that field (same relative order, no omissions), and the
two-filter result is the filter by the conjunction. -/
theorem get_conversation_steps_spec (sessions : SessionStore) (sid : Nat)
    (session : ConversationSession) (h : sessions sid = some session) :
    get_conversation_steps sessions sid none none =
        Except.ok session.steps ∧
      (∀ t, get_conversation_steps sessions sid (some t) none =
        Except.ok (session.steps.filter
          (fun step => decide (step.type = t)))) ∧
      (∀ s, get_conversation_steps sessions sid none (some s) =
        Except.ok (session.steps.filter
          (fun step => decide (step.status = s)))) ∧
      (∀ t s, get_conversation_steps sessions sid (some t) (some s) =
        Except.ok (session.steps.filter
          (fun step => decide (step.type = t) && decide (step.status = s)))) := by
  refine ⟨?_, ?_, ?_, ?_⟩
  · simp [get_conversation_steps, h]
  · intro t
    simp [get_conversation_steps, h, stepType_value_ne_empty]
  · intro s
    simp [get_conversation_steps, h, stepStatus_value_ne_empty]
  · intro t s
    simp [get_conversation_steps, h, stepType_value_ne_empty,
      stepStatus_value_ne_empty, List.filter_filter]
    exact List.filter_congr (fun a _ => Bool.and_comm _ _)

theorem get_conversation_steps_witness :
    sampleSessions 0 = some sampleSession ∧
      get_conversation_steps sampleSessions 0 none none =
        Except.ok sampleSession.steps ∧
      get_conversation_steps sampleSessions 0 (some StepType.TOOL_USE) none =
        Except.ok (sampleSession.steps.filter
          (fun step => decide (step.type = StepType.TOOL_USE))) :=
  ⟨rfl, (get_conversation_steps_spec sampleSessions 0 sampleSession rfl).1,
   (get_conversation_steps_spec sampleSessions 0 sampleSession rfl).2.1
     StepType.TOOL_USE⟩

/-- C2: for a stored session, the summary carries a per-type count mapping
whose keys are all four step types and a per-status mapping whose keys are
all four statuses, each key holding the count of its steps (0 when
absent), each mapping summing to the total step count, which is the number
of steps; the total duration is measured from `created_at` to the current
instant, and the message count is the length of the message list. -/
theorem get_conversation_summary_spec (sessions : SessionStore) (sid : Nat)
    (now : Nat) (session : ConversationSession)
    (h : sessions sid = some session) :
    ∃ s, get_conversation_summary sessions sid now = Except.ok s ∧
      s.step_type_counts.map Prod.fst = allStepTypes ∧
      s.status_counts.map Prod.fst = allStepStatuses ∧
      (∀ t, (t, session.steps.countP
        (fun step => decide (step.type = t))) ∈ s.step_type_counts) ∧
      (∀ stt, (stt, session.steps.countP
        (fun step => decide (step.status = stt))) ∈ s.status_counts) ∧
      (s.step_type_counts.map Prod.snd).sum = s.total_steps ∧
      (s.status_counts.map Prod.snd).sum = s.total_steps ∧
      s.total_steps = session.steps.length ∧
      s.total_duration = (now : Int) - (session.created_at : Int) ∧
      s.messages_count = session.messages.length := by
  simp only [get_conversation_summary, h]
  refine ⟨_, rfl, ?_, ?_, ?_, ?_, ?_, ?_, ?_, ?_, ?_⟩
  · rfl
  · rfl
  · intro t
    refine List.mem_map.mpr ⟨t, ?_, ?_⟩
    · cases t <;> simp [allStepTypes]
    · simp [summaryCounts_fst]
  · intro stt
    refine List.mem_map.mpr ⟨stt, ?_, ?_⟩
    · cases stt <;> simp [allStepStatuses]
    · simp [summaryCounts_snd]
  · have hp := countP_type_partition session.steps
    simp [allStepTypes, summaryCounts_fst]
    omega
  · have hp := countP_status_partition session.steps
    simp [allStepStatuses, summaryCounts_snd]
    omega
  · rfl
  · rfl
  · rfl

theorem get_conversation_summary_witness :
    sampleSessions 0 = some sampleSession ∧
      ∃ s, get_conversation_summary sampleSessions 0 9 = Except.ok s ∧
        (s.step_type_counts.map Prod.snd).sum = s.total_steps ∧
        s.messages_count = sampleSession.messages.length :=
  ⟨rfl, by
    obtain ⟨s, h1, _, _, _, _, h6, _, _, _, h10⟩ :=
      get_conversation_summary_spec sampleSessions 0 9 sampleSession rfl
    exact ⟨s, h1, h6, h10⟩⟩

end ComputerUseDemo
